import Mathlib

/-!
Verification of the CRE trading-bot workflow service
(`src/ai-agent-trading-bot-workflow/main.ts` and
`src/ai-agent-trading-bot-workflow/services/llm-service.ts`).

The TypeScript source is shallowly embedded: JSON values are an inductive
type, `JSON.parse` / `JSON.stringify` are executable Lean functions with
JavaScript semantics, HTTP transports are stubbed by explicit per-executor
results, and a JavaScript exception escaping a function is an `Except.error`.

Modelling notes, recorded once here:
* JSON numbers are modelled as integers; no verified property involves
  fractional number literals, and the embedded parser rejects them.
* The embedded parser accepts raw control characters inside string literals
  and integer literals with leading zeros (real `JSON.parse` rejects them);
  no verified property depends on those inputs.
* Host exception message texts (`SyntaxError`, `TypeError`, consensus
  failures) are engine-specific; they are modelled by fixed strings.
-/

set_option maxRecDepth 20000

/-- JSON values as produced by `JSON.parse`: null, booleans, numbers,
strings, arrays and objects with key order preserved.  Numbers are modelled
as integers (see the header note). -/
inductive Json where
  | null : Json
  | bool : Bool → Json
  | num : Int → Json
  | str : String → Json
  | arr : List Json → Json
  | obj : List (String × Json) → Json

/-- Lookup of the first binding of a key in an association list.  Objects
built by the embedded parser carry each key at most once, so this is
JavaScript property lookup. -/
def jsLookup {α : Type} : List (String × α) → String → Option α
  | [], _ => none
  | (k, v) :: rest, key => if k = key then some v else jsLookup rest key

/-- JavaScript property assignment on an object: an existing key keeps its
position and gets the new value, a new key is appended.  This is the
semantics of both a duplicate key in an object literal and the object spread
used for the callback headers. -/
def objSet {α : Type} : List (String × α) → String → α → List (String × α)
  | [], k, v => [(k, v)]
  | (k0, v0) :: rest, k, v =>
    if k0 = k then (k, v) :: rest else (k0, v0) :: objSet rest k v

/-- JavaScript truthiness of a JSON value: `null`, `false`, `0` and the
empty string are falsy; every array and object is truthy. -/
def Json.truthy : Json → Bool
  | .null => false
  | .bool b => b
  | .num n => n ≠ 0
  | .str s => s ≠ ""
  | .arr _ => true
  | .obj _ => true

/-- Truthiness of a possibly-`undefined` JavaScript value (`none` stands for
`undefined`, which is falsy). -/
def truthyOpt : Option Json → Bool
  | none => false
  | some v => v.truthy

/-- JavaScript property access `v[key]` on a value already known not to be
`null`: objects look the key up, primitives and arrays yield `undefined`.
Access on `null` throws and is handled explicitly at each call site. -/
def jsField : Json → String → Option Json
  | .obj kvs, key => jsLookup kvs key
  | _, _ => none

/-- JavaScript index access `v[0]`: first array element, object property
`"0"`, first character of a string; `undefined` on other non-null values. -/
def jsIndex0 : Json → Option Json
  | .arr (x :: _) => some x
  | .arr [] => none
  | .obj kvs => jsLookup kvs "0"
  | .str s =>
    match s.data with
    | [] => none
    | c :: _ => some (.str ⟨[c]⟩)
  | _ => none

/-- String escaping of `JSON.stringify`: a quote or a backslash gets a
backslash put in front of it (control characters stay verbatim, see the
header note). -/
def escapeChars : List Char → List Char
  | [] => []
  | c :: cs =>
    if c = '"' ∨ c = '\\' then '\\' :: c :: escapeChars cs
    else c :: escapeChars cs

mutual

/-- Characters of `JSON.stringify` output: no whitespace, insertion order of
object keys preserved. -/
def stringifyChars : Json → List Char
  | .null => ("null" : String).data
  | .bool b => (if b then ("true" : String) else ("false" : String)).data
  | .num n => (toString n).data
  | .str s => '"' :: (escapeChars s.data ++ ['"'])
  | .arr l => '[' :: (stringifyArrChars l ++ [']'])
  | .obj kvs => '{' :: (stringifyObjChars kvs ++ ['}'])

/-- Comma-separated renderings of the elements of a JSON array. -/
def stringifyArrChars : List Json → List Char
  | [] => []
  | [v] => stringifyChars v
  | v :: rest => stringifyChars v ++ ',' :: stringifyArrChars rest

/-- Comma-separated `"key":value` renderings of the members of a JSON
object. -/
def stringifyObjChars : List (String × Json) → List Char
  | [] => []
  | [(k, v)] => '"' :: (escapeChars k.data ++ '"' :: ':' :: stringifyChars v)
  | (k, v) :: rest =>
    ('"' :: (escapeChars k.data ++ '"' :: ':' :: stringifyChars v))
      ++ ',' :: stringifyObjChars rest

end

/-- The text `JSON.stringify` produces for a JSON value. -/
def Json.stringify (v : Json) : String := ⟨stringifyChars v⟩

/-- Whitespace accepted between JSON tokens. -/
def jsonWs (c : Char) : Bool := c = ' ' || c = '\n' || c = '\t' || c = '\r'

/-- Drop leading JSON whitespace. -/
def skipWs : List Char → List Char
  | [] => []
  | c :: rest => if jsonWs c then skipWs rest else c :: rest

/-- Value of a decimal digit character, `none` for a non-digit. -/
def digitVal (c : Char) : Option Nat :=
  if '0' ≤ c ∧ c ≤ '9' then some (c.toNat - '0'.toNat) else none

/-- Consume a (possibly empty) run of decimal digits, extending the
accumulator. -/
def parseDigits : List Char → Nat → Nat × List Char
  | [], acc => (acc, [])
  | c :: rest, acc =>
    match digitVal c with
    | some d => parseDigits rest (acc * 10 + d)
    | none => (acc, c :: rest)

/-- Resolution of a JSON string escape `\c`, `none` when the escape is
invalid (`\uXXXX` is not modelled; no verified property uses it). -/
def unescapeChar (c : Char) : Option Char :=
  if c = '"' then some '"'
  else if c = '\\' then some '\\'
  else if c = '/' then some '/'
  else if c = 'n' then some '\n'
  else if c = 't' then some '\t'
  else if c = 'r' then some '\r'
  else if c = 'b' then some (Char.ofNat 8)
  else if c = 'f' then some (Char.ofNat 12)
  else none

/-- Parse the body of a JSON string literal, the opening quote already
consumed: returns the decoded characters and the input after the closing
quote. -/
def parseStringBody : List Char → Option (List Char × List Char)
  | [] => none
  | c :: rest =>
    if c = '"' then some ([], rest)
    else if c = '\\' then
      match rest with
      | [] => none
      | e :: rest1 =>
        match unescapeChar e with
        | none => none
        | some d =>
          match parseStringBody rest1 with
          | none => none
          | some (s, r) => some (d :: s, r)
    else
      match parseStringBody rest with
      | none => none
      | some (s, r) => some (c :: s, r)

/-- State of the recursive-descent JSON parser: a value is expected, or the
members of an object (with the bindings parsed so far), or the elements of
an array. -/
inductive PMode where
  | val : PMode
  | members : List (String × Json) → PMode
  | elems : List Json → PMode

/-- One step of the recursive-descent JSON parser, the recursive descent
abstracted as `rec`.  In `members`/`elems` mode the input starts after the
opening bracket with leading whitespace skipped; duplicate object keys
overwrite in place as in JavaScript. -/
def parseStep (rec : PMode → List Char → Option (Json × List Char)) :
    PMode → List Char → Option (Json × List Char) :=
  fun mode cs =>
    match mode, cs with
    | .val, [] => none
    | .val, c :: rest =>
      if c = '{' then
        match skipWs rest with
        | '}' :: rest1 => some (.obj [], rest1)
        | rest1 => rec (.members []) rest1
      else if c = '[' then
        match skipWs rest with
        | ']' :: rest1 => some (.arr [], rest1)
        | rest1 => rec (.elems []) rest1
      else if c = '"' then
        match parseStringBody rest with
        | none => none
        | some (s, rest1) => some (.str ⟨s⟩, rest1)
      else if c = 't' then
        match rest with
        | 'r' :: 'u' :: 'e' :: rest1 => some (.bool true, rest1)
        | _ => none
      else if c = 'f' then
        match rest with
        | 'a' :: 'l' :: 's' :: 'e' :: rest1 => some (.bool false, rest1)
        | _ => none
      else if c = 'n' then
        match rest with
        | 'u' :: 'l' :: 'l' :: rest1 => some (.null, rest1)
        | _ => none
      else if c = '-' then
        match rest with
        | [] => none
        | d :: rest1 =>
          match digitVal d with
          | none => none
          | some v =>
            match parseDigits rest1 v with
            | (n, rest2) => some (.num (-(n : Int)), rest2)
      else
        match digitVal c with
        | none => none
        | some v =>
          match parseDigits rest v with
          | (n, rest2) => some (.num (n : Int), rest2)
    | .members acc, cs =>
      match cs with
      | '"' :: rest =>
        match parseStringBody rest with
        | none => none
        | some (keyChars, rest1) =>
          match skipWs rest1 with
          | ':' :: rest2 =>
            match rec .val (skipWs rest2) with
            | none => none
            | some (v, rest3) =>
              match skipWs rest3 with
              | ',' :: rest4 => rec (.members (objSet acc ⟨keyChars⟩ v)) (skipWs rest4)
              | '}' :: rest4 => some (.obj (objSet acc ⟨keyChars⟩ v), rest4)
              | _ => none
          | _ => none
      | _ => none
    | .elems acc, cs =>
      match rec .val cs with
      | none => none
      | some (v, rest) =>
        match skipWs rest with
        | ',' :: rest1 => rec (.elems (acc ++ [v])) (skipWs rest1)
        | ']' :: rest1 => some (.arr (acc ++ [v]), rest1)
        | _ => none

/-- Fueled recursive-descent JSON parser, structurally recursive on the
fuel (the top-level entry point supplies more fuel than any input can
consume); out of fuel the parser fails. -/
def parseF : Nat → PMode → List Char → Option (Json × List Char)
  | 0, _, _ => none
  | f + 1, mode, cs => parseStep (parseF f) mode cs

/-- The JavaScript `JSON.parse`: `none` models a thrown `SyntaxError`.  The
fuel `2 * length + 2` exceeds what any input can consume. -/
def Json.parse (s : String) : Option Json :=
  let cs := skipWs s.data
  match parseF (2 * cs.length + 2) .val cs with
  | some (v, rest) => if skipWs rest = [] then some v else none
  | none => none

/-! Binary codec: `toBase64` from `llm-service.ts` lines 14-32, translated
from the indexed loop (the loop handles three input bytes per iteration,
with the second and third byte of an incomplete final group read as 0 and
their output symbols replaced by padding). -/

/-- The 64-symbol alphabet `BASE64_CHARS` of the source. -/
def BASE64_CHARS : String :=
  "ABCDEFGHIJKLMNOPQRSTUVWXYZabcdefghijklmnopqrstuvwxyz0123456789+/"

/-- Indexing `BASE64_CHARS[n]`; every index the encoder produces is below
64, so the default is never used. -/
def b64char (n : Nat) : Char := BASE64_CHARS.data.getD n 'A'

/-- Characters produced by the `toBase64` loop, three input bytes per
step. -/
def toBase64Chars : List Nat → List Char
  | [] => []
  | [b1] =>
    [b64char (b1 >>> 2), b64char ((b1 &&& 3) <<< 4), '=', '=']
  | [b1, b2] =>
    [b64char (b1 >>> 2), b64char (((b1 &&& 3) <<< 4) ||| (b2 >>> 4)),
     b64char ((b2 &&& 15) <<< 2), '=']
  | b1 :: b2 :: b3 :: rest =>
    b64char (b1 >>> 2)
      :: b64char (((b1 &&& 3) <<< 4) ||| (b2 >>> 4))
      :: b64char (((b2 &&& 15) <<< 2) ||| (b3 >>> 6))
      :: b64char (b3 &&& 63)
      :: toBase64Chars rest

/-- The source's `toBase64`, on a byte sequence (`Uint8Array` entries are
below 256). -/
def toBase64 (bytes : List Nat) : String := ⟨toBase64Chars bytes⟩

/-- Modelled from the spec: a reference RFC-4648 base64 decoder (§8 asks
`decode(encode(b)) == b` against a reference decoder; the repository has no
decoder of its own).  Four symbols per group, `=` padding only at the end. -/
def b64val (c : Char) : Option Nat := BASE64_CHARS.data.findIdx? (· == c)

/-- Byte groups of the reference decoder. -/
def b64decodeChars : List Char → Option (List Nat)
  | [] => some []
  | c1 :: c2 :: c3 :: c4 :: rest =>
    match b64val c1, b64val c2 with
    | some v1, some v2 =>
      if c3 = '=' ∧ c4 = '=' ∧ rest = [] then
        some [(v1 <<< 2) ||| (v2 >>> 4)]
      else if c4 = '=' ∧ rest = [] then
        match b64val c3 with
        | some v3 =>
          some [(v1 <<< 2) ||| (v2 >>> 4), ((v2 &&& 15) <<< 4) ||| (v3 >>> 2)]
        | none => none
      else
        match b64val c3, b64val c4, b64decodeChars rest with
        | some v3, some v4, some tail =>
          some (((v1 <<< 2) ||| (v2 >>> 4))
            :: (((v2 &&& 15) <<< 4) ||| (v3 >>> 2))
            :: (((v3 &&& 3) <<< 6) ||| v4)
            :: tail)
        | _, _, _ => none
    | _, _ => none
  | _ => none

/-- The reference decoder on a string. -/
def b64decode (s : String) : Option (List Nat) := b64decodeChars s.data

/-- UTF-8 bytes of one unicode scalar value (`TextEncoder` semantics). -/
def utf8Bytes (c : Char) : List Nat :=
  let n := c.toNat
  if n < 128 then [n]
  else if n < 2048 then
    [192 ||| (n >>> 6), 128 ||| (n &&& 63)]
  else if n < 65536 then
    [224 ||| (n >>> 12), 128 ||| ((n >>> 6) &&& 63), 128 ||| (n &&& 63)]
  else
    [240 ||| (n >>> 18), 128 ||| ((n >>> 12) &&& 63),
     128 ||| ((n >>> 6) &&& 63), 128 ||| (n &&& 63)]

/-- The `TextEncoder().encode` byte sequence of a string. -/
def utf8Encode (s : String) : List Nat := s.data.flatMap utf8Bytes

/-! HTTP layer: requests, per-executor transport results, and the
consensus aggregation of the CRE SDK. -/

/-- An HTTP response as the workflow sees it: status code and body text
(the source decodes the body bytes with `TextDecoder`). -/
structure HttpResponse where
  statusCode : Nat
  body : String

/-- One redundant executor's transport outcome: a response, or a thrown
transport exception with its message. -/
def TransportResult : Type := Except String HttpResponse

/-- An outbound HTTP request as built by the source (`url`, `method`,
`headers`, base64-encoded `body`). -/
structure HttpRequest where
  url : String
  method : String
  headers : List (String × String)
  body : String

/-- Modelled from the spec: `consensusIdenticalAggregation` of the CRE SDK
(§4.3/§9: the aggregation accepts a single canonical result only when the
redundant executions' results are byte-identical, and fails the call
otherwise). -/
def consensusIdenticalAggregation : List String → Except String String
  | [] => .error "no observations"
  | x :: xs =>
    if xs.all (· == x) then .ok x
    else .error "consensus failure: observations differ"

/-- Fixed stand-in for an engine-specific `SyntaxError` message from
`JSON.parse`. -/
def jsonSyntaxErrorMessage : String := "SyntaxError: JSON parse error"

/-- Fixed stand-in for an engine-specific `TypeError` message from a
property access on `null`. -/
def nullAccessErrorMessage : String := "TypeError: property access on null"

/-! Model Gateway (`LLMService.sendRequest`, `llm-service.ts` lines 88-158)
and Callback Forwarder (`LLMService.sendToServer`, lines 184-232).  Each
redundant executor's transport outcome is an explicit `TransportResult`
argument; the rest is translated from the source. -/

/-- The outbound provider request built inside the Gateway's
`fetchAndParse` (lines 103-111): fixed URL, bearer credential, JSON
content-type, base64-encoded serialized payload. -/
def buildGatewayRequest (apiKey : String) (payload : Json) : HttpRequest :=
  { url := "https://openrouter.ai/api/v1/chat/completions"
    method := "POST"
    headers := [("Authorization", "Bearer " ++ apiKey),
                ("Content-Type", "application/json")]
    body := toBase64 (utf8Encode (Json.stringify payload)) }

/-- Rendering of a truthy extracted `content` value as the string the
callback returns.  Provider responses carry `content` as a string; for a
non-string JSON value (which the loosely-typed source would pass through
unchanged) the JSON rendering stands in. -/
def contentString : Json → String
  | .str s => s
  | v => Json.stringify v

/-- A `\x7b"error": message\x7d` envelope, as `fetchAndParse` builds with
`JSON.stringify`. -/
def errorEnvelope (message : String) : String :=
  Json.stringify (.obj [("error", .str message)])

/-- The Gateway's per-executor `fetchAndParse` (lines 96-135): non-200
status becomes a textual error envelope, a 200 body is parsed and
`choices[0].message.content` extracted behind truthiness guards, and any
thrown exception is caught and converted to an error envelope. -/
def gatewayFetch (apiKey : String) (payload : Json) (t : TransportResult) :
    String :=
  let _request := buildGatewayRequest apiKey payload
  match t with
  | .error msg => errorEnvelope msg
  | .ok resp =>
    if resp.statusCode ≠ 200 then
      errorEnvelope ("HTTP " ++ toString resp.statusCode ++ ": " ++ resp.body)
    else
      match Json.parse resp.body with
      | none => errorEnvelope jsonSyntaxErrorMessage
      | some .null => errorEnvelope nullAccessErrorMessage
      | some data =>
        match jsField data "choices" with
        | some choices =>
          if choices.truthy then
            match jsIndex0 choices with
            | some c0 =>
              if c0.truthy then
                match jsField c0 "message" with
                | some msg =>
                  if msg.truthy then
                    match jsField msg "content" with
                    | some content =>
                      if content.truthy then contentString content
                      else Json.stringify
                        (.obj [("error", .str "No content in response"),
                               ("raw", data)])
                    | none => Json.stringify
                        (.obj [("error", .str "No content in response"),
                               ("raw", data)])
                  else Json.stringify
                    (.obj [("error", .str "No content in response"),
                           ("raw", data)])
                | none => Json.stringify
                    (.obj [("error", .str "No content in response"),
                           ("raw", data)])
              else Json.stringify
                (.obj [("error", .str "No content in response"), ("raw", data)])
            | none => Json.stringify
                (.obj [("error", .str "No content in response"), ("raw", data)])
          else Json.stringify
            (.obj [("error", .str "No content in response"), ("raw", data)])
        | none => Json.stringify
            (.obj [("error", .str "No content in response"), ("raw", data)])

/-- The Gateway's post-consensus error check (lines 142-151): the accepted
result is parsed and a truthy `error` property makes the call fail.  A
parse failure, a `null` result (whose property access throws and is
caught), or a primitive is "not JSON error format" and passes through. -/
def resultHasError (result : String) : Bool :=
  match Json.parse result with
  | some (.obj kvs) => truthyOpt (jsLookup kvs "error")
  | _ => false

/-- The Gateway `LLMService.sendRequest` (lines 88-158): runs
`fetchAndParse` on every redundant execution, applies the identical-result
consensus, checks the accepted result for an error envelope, and returns
the completion text or `null` (`none`). -/
def sendRequest (apiKey : String) (payload : Json)
    (execs : List TransportResult) : Option String :=
  match consensusIdenticalAggregation
      (execs.map (gatewayFetch apiKey payload)) with
  | .error _ => none
  | .ok result => if resultHasError result then none else some result

/-- The source's `getTradingDecisions` (lines 163-179): a falsy completion
(`null` or the empty string) yields `null`; otherwise the completion is
`JSON.parse`d, a thrown parse error is caught and yields `null`, and any
successfully parsed value is returned without shape validation. -/
def getTradingDecisions (apiKey : String) (payload : Json)
    (execs : List TransportResult) : Option Json :=
  match sendRequest apiKey payload execs with
  | none => none
  | some response =>
    if response = "" then none
    else
      match Json.parse response with
      | some v => some v
      | none => none

/-- The merged outbound headers of `sendToServer` (lines 201-204): an
object literal starting from the JSON content-type default, with the
caller-supplied headers spread over it in order. -/
def mergedServerHeaders (headers : List (String × String)) :
    List (String × String) :=
  headers.foldl (fun acc kv => objSet acc kv.1 kv.2)
    [("Content-Type", "application/json")]

/-- The outbound callback request built inside `sendToServer`'s
`fetchAndParse` (lines 198-206). -/
def buildServerRequest (serverUrl : String) (data : Json)
    (headers : List (String × String)) : HttpRequest :=
  { url := serverUrl
    method := "POST"
    headers := mergedServerHeaders headers
    body := toBase64 (utf8Encode (Json.stringify data)) }

/-- The success envelope `sendToServer`'s executor builds for a 2xx
response. -/
def successObj (body : String) : Json :=
  .obj [("success", .bool true), ("response", .str body)]

/-- The failure envelope of `sendToServer` (non-2xx status, or a caught
exception). -/
def failObj (message : String) : Json :=
  .obj [("success", .bool false), ("error", .str message)]

/-- The Forwarder's per-executor `fetchAndParse` (lines 192-220): statuses
in [200,300) map to a success envelope with the body text, everything else
to a failure envelope, exceptions included. -/
def serverFetch (serverUrl : String) (data : Json)
    (headers : List (String × String)) (t : TransportResult) : String :=
  let _request := buildServerRequest serverUrl data headers
  match t with
  | .error msg => Json.stringify (failObj msg)
  | .ok resp =>
    if 200 ≤ resp.statusCode ∧ resp.statusCode < 300 then
      Json.stringify (successObj resp.body)
    else
      Json.stringify
        (failObj ("HTTP " ++ toString resp.statusCode ++ ": " ++ resp.body))

/-- The Forwarder `LLMService.sendToServer` (lines 184-232): consensus over
the executors' envelope strings, then `JSON.parse` of the accepted result;
a consensus failure (or, unreachably, a parse failure) is caught and
reported as a failure object.  The function never raises. -/
def sendToServer (serverUrl : String) (data : Json)
    (headers : List (String × String)) (execs : List TransportResult) : Json :=
  match consensusIdenticalAggregation
      (execs.map (serverFetch serverUrl data headers)) with
  | .error e => failObj e
  | .ok resultJson =>
    match Json.parse resultJson with
    | some j => j
    | none => failObj jsonSyntaxErrorMessage

/-! Response Interpreter and Orchestrator (`main.ts`). -/

/-- The raw-text fallback wrapper the interpreter builds on a caught
exception. -/
def rawWrapper (response : String) : Json :=
  .obj [("raw_response", .str response)]

/-- The interpretation block of `onHttpTrigger` (`main.ts` lines 40-52):
`JSON.parse` the completion; when `trade_decisions` is truthy, the logging
loop iterates it.  Any exception in the block — a parse error, the property
access on a `null` parse result, `for..of` over a truthy non-iterable, or a
property access on a `null` array element — is caught and replaces the
value with the raw-text wrapper.  (Strings are iterable in JavaScript and
their character elements tolerate the property accesses of the loop body.) -/
def interpretResponse (response : String) : Json :=
  match Json.parse response with
  | none => rawWrapper response
  | some .null => rawWrapper response
  | some v =>
    match jsField v "trade_decisions" with
    | none => v
    | some td =>
      if td.truthy then
        match td with
        | .arr items =>
          if items.any (fun d => match d with | .null => true | _ => false)
          then rawWrapper response
          else v
        | .str _ => v
        | _ => rawWrapper response
      else v

/-- Workflow configuration fields the HTTP-trigger path reads
(`main.ts` lines 4-10; the `?? ""` of line 26 makes a missing key the empty
string). -/
structure Config where
  callbackUrl : String
  openRouterApiKey : String

/-- Inputs of one HTTP-trigger invocation: the transport envelope text, the
configuration, each outbound call's stubbed redundant-executor outcomes, and
the `runtime.now()` timestamp text. -/
structure TriggerArgs where
  input : String
  config : Config
  gatewayExecs : List TransportResult
  forwarderExecs : List TransportResult
  timestamp : String

/-- Observable outcome of one HTTP-trigger invocation: the returned string,
or `Except.error` for a JavaScript exception escaping the handler, plus how
often each service call was entered. -/
structure TriggerOut where
  result : Except String String
  gatewayCalls : Nat
  forwarderCalls : Nat

/-- The validation failure the handler returns (`main.ts` line 23). -/
def missingDataError : String :=
  Json.stringify
    (.obj [("error",
            .str "Missing required data: model and messages are required")])

/-- The Gateway failure the handler returns (`main.ts` line 34). -/
def llmFailureError : String :=
  Json.stringify (.obj [("error", .str "Failed to get response from LLM")])

/-- The HTTP-trigger handler `onHttpTrigger` (`main.ts` lines 17-81):
decode the envelope (uncaught `SyntaxError` on invalid JSON; the line-19 log
interpolation throws an uncaught `TypeError` on a `null` payload), validate
`model` and `messages` by truthiness, call the Gateway, interpret the
completion, and either post to the configured callback URL and return the
combined summary or return the completion unmodified. -/
def onHttpTrigger (a : TriggerArgs) : TriggerOut :=
  match Json.parse a.input with
  | none => ⟨.error jsonSyntaxErrorMessage, 0, 0⟩
  | some .null => ⟨.error nullAccessErrorMessage, 0, 0⟩
  | some payload =>
    if !truthyOpt (jsField payload "model")
        || !truthyOpt (jsField payload "messages") then
      ⟨.ok missingDataError, 0, 0⟩
    else
      match sendRequest a.config.openRouterApiKey payload a.gatewayExecs with
      | none => ⟨.ok llmFailureError, 1, 0⟩
      | some response =>
        if response = "" then ⟨.ok llmFailureError, 1, 0⟩
        else
          let parsedResponse := interpretResponse response
          if a.config.callbackUrl ≠ "" then
            let serverResult :=
              sendToServer a.config.callbackUrl
                (.obj [("llm_response", parsedResponse),
                       ("timestamp", .str a.timestamp)])
                [] a.forwarderExecs
            ⟨.ok (Json.stringify
                (.obj [("llm_response", parsedResponse),
                       ("server_callback", serverResult)])), 1, 1⟩
          else ⟨.ok response, 1, 0⟩

/-- Modelled from the spec: the `TradeDecision` shape of §3 (used only to
judge the spec's "strictly parsed" wording; the source never validates it). -/
def isTradeDecision (j : Json) : Bool :=
  match j with
  | .obj kvs =>
    (match jsLookup kvs "asset" with | some (.str _) => true | _ => false)
    && (match jsLookup kvs "action" with
        | some (.str a) => a = "buy" || a = "sell" || a = "hold"
        | _ => false)
    && (match jsLookup kvs "allocation_usd" with
        | some (.num _) => true | _ => false)
    && (match jsLookup kvs "tp_price" with
        | some (.num _) => true | some .null => true | _ => false)
    && (match jsLookup kvs "sl_price" with
        | some (.num _) => true | some .null => true | _ => false)
    && (match jsLookup kvs "exit_plan" with
        | some (.str _) => true | _ => false)
    && (match jsLookup kvs "rationale" with
        | some (.str _) => true | _ => false)
  | _ => false

/-- Modelled from the spec: the `TradingDecisionResponse` shape of §3, a
`reasoning` text plus a sequence of `TradeDecision`s. -/
def isTradingDecisionResponse (j : Json) : Bool :=
  match j with
  | .obj kvs =>
    (match jsLookup kvs "reasoning" with | some (.str _) => true | _ => false)
    && (match jsLookup kvs "trade_decisions" with
        | some (.arr items) => items.all isTradeDecision
        | _ => false)
  | _ => false

/-! Parser lemmas: round trip of the string escaper, and `Json.parse` on the
three envelope shapes the services serialize with `JSON.stringify`. -/

/-- Parsing undoes escaping: the string body parser consumes an escaped
character run up to the closing quote and returns the original run. -/
theorem parseStringBody_escape (cs rest : List Char) :
    parseStringBody (escapeChars cs ++ '"' :: rest) = some (cs, rest) := by
  induction cs with
  | nil => simp [escapeChars, parseStringBody.eq_def]
  | cons c cs ih =>
    by_cases h : c = '"' ∨ c = '\\'
    · have he : escapeChars (c :: cs) = '\\' :: c :: escapeChars cs := by
        simp [escapeChars, h]
      rcases h with h | h <;> subst h <;>
        · rw [he]
          rw [List.cons_append, parseStringBody.eq_def]
          simp [unescapeChar, ih, parseStringBody.eq_def]
    · push_neg at h
      have he : escapeChars (c :: cs) = c :: escapeChars cs := by
        simp [escapeChars, h.1, h.2]
      rw [he, List.cons_append, parseStringBody.eq_def]
      simp [h.1, h.2, ih]

/-- A character run free of quotes and backslashes (such as a concrete key)
parses as itself. -/
theorem parseStringBody_plain (cs rest : List Char)
    (h : escapeChars cs = cs) :
    parseStringBody (cs ++ '"' :: rest) = some (cs, rest) := by
  have hx := parseStringBody_escape cs rest
  rwa [h] at hx

/-- The value parser on a serialized string literal. -/
theorem parseF_str (f : Nat) (s : String) (rest : List Char) :
    parseF (f + 1) .val ('"' :: (escapeChars s.data ++ '"' :: rest)) =
      some (.str s, rest) := by
  rw [parseF]
  simp [parseStep, parseStringBody_escape]

/-- The value parser on the literal `true`. -/
theorem parseF_true (f : Nat) (rest : List Char) :
    parseF (f + 1) .val ('t' :: 'r' :: 'u' :: 'e' :: rest) =
      some (.bool true, rest) := by
  rw [parseF]
  simp [parseStep]

/-- The value parser on the literal `false`. -/
theorem parseF_false (f : Nat) (rest : List Char) :
    parseF (f + 1) .val ('f' :: 'a' :: 'l' :: 's' :: 'e' :: rest) =
      some (.bool false, rest) := by
  rw [parseF]
  simp [parseStep]

/-- Serialized characters of the one-member error envelope. -/
theorem errEnv_chars (s : String) :
    stringifyChars (.obj [("error", .str s)]) =
      '{' :: '"' :: 'e' :: 'r' :: 'r' :: 'o' :: 'r' :: '"' :: ':' :: '"' ::
        (escapeChars s.data ++ ['"', '}']) := by
  simp [stringifyChars, stringifyObjChars, escapeChars]

/-- The value parser accepts the serialized error envelope and returns the
envelope object with nothing left over. -/
theorem parseF_errEnv (f : Nat) (s : String) :
    parseF (f + 3) .val (stringifyChars (.obj [("error", .str s)])) =
      some (.obj [("error", .str s)], []) := by
  have hkey : parseStringBody
      ('e' :: 'r' :: 'r' :: 'o' :: 'r' :: '"' :: ':' :: '"' ::
        (escapeChars s.data ++ ['"', '}'])) =
      some (['e', 'r', 'r', 'o', 'r'],
        ':' :: '"' :: (escapeChars s.data ++ ['"', '}'])) := by
    have hx := parseStringBody_plain ['e', 'r', 'r', 'o', 'r']
      (':' :: '"' :: (escapeChars s.data ++ ['"', '}'])) (by rfl)
    simpa using hx
  have hval : parseF (f + 1) .val ('"' :: (escapeChars s.data ++ ['"', '}'])) =
      some (.str s, ['}']) := parseF_str f s ['}']
  rw [errEnv_chars]
  rw [parseF]
  simp only [parseStep]
  simp [skipWs, jsonWs]
  rw [parseF]
  simp only [parseStep]
  simp [skipWs, jsonWs, hkey, hval, objSet]

/-- `JSON.parse` recovers the error envelope object from its serialized
text. -/
theorem parse_errorEnvelope (s : String) :
    Json.parse (errorEnvelope s) = some (.obj [("error", .str s)]) := by
  show Json.parse ⟨stringifyChars (.obj [("error", .str s)])⟩ = _
  have hskip : skipWs (stringifyChars (.obj [("error", .str s)])) =
      stringifyChars (.obj [("error", .str s)]) := by
    rw [errEnv_chars]
    simp [skipWs, jsonWs]
  have hlen : 1 ≤ (stringifyChars (.obj [("error", .str s)])).length := by
    rw [errEnv_chars]; simp
  rw [Json.parse]
  simp only [hskip]
  have hfuel : 2 * (stringifyChars (.obj [("error", .str s)])).length + 2 =
      2 * (stringifyChars (.obj [("error", .str s)])).length - 1 + 3 := by
    omega
  rw [hfuel, parseF_errEnv]
  simp [skipWs]

/-- Serialized characters of the Forwarder's success envelope. -/
theorem successObj_chars (b : String) :
    stringifyChars (successObj b) =
      '{' :: '"' :: 's' :: 'u' :: 'c' :: 'c' :: 'e' :: 's' :: 's' :: '"' ::
      ':' :: 't' :: 'r' :: 'u' :: 'e' :: ',' :: '"' :: 'r' :: 'e' :: 's' ::
      'p' :: 'o' :: 'n' :: 's' :: 'e' :: '"' :: ':' :: '"' ::
        (escapeChars b.data ++ ['"', '}']) := by
  simp [successObj, stringifyChars, stringifyObjChars, escapeChars]

/-- Serialized characters of the Forwarder's failure envelope. -/
theorem failObj_chars (m : String) :
    stringifyChars (failObj m) =
      '{' :: '"' :: 's' :: 'u' :: 'c' :: 'c' :: 'e' :: 's' :: 's' :: '"' ::
      ':' :: 'f' :: 'a' :: 'l' :: 's' :: 'e' :: ',' :: '"' :: 'e' :: 'r' ::
      'r' :: 'o' :: 'r' :: '"' :: ':' :: '"' ::
        (escapeChars m.data ++ ['"', '}']) := by
  simp [failObj, stringifyChars, stringifyObjChars, escapeChars]

/-- The value parser accepts the serialized success envelope. -/
theorem parseF_successEnv (f : Nat) (b : String) :
    parseF (f + 4) .val (stringifyChars (successObj b)) =
      some (successObj b, []) := by
  have hkey1 : parseStringBody
      ('s' :: 'u' :: 'c' :: 'c' :: 'e' :: 's' :: 's' :: '"' :: ':' :: 't' ::
       'r' :: 'u' :: 'e' :: ',' :: '"' :: 'r' :: 'e' :: 's' :: 'p' :: 'o' ::
       'n' :: 's' :: 'e' :: '"' :: ':' :: '"' ::
        (escapeChars b.data ++ ['"', '}'])) =
      some (['s', 'u', 'c', 'c', 'e', 's', 's'],
        ':' :: 't' :: 'r' :: 'u' :: 'e' :: ',' :: '"' :: 'r' :: 'e' :: 's' ::
        'p' :: 'o' :: 'n' :: 's' :: 'e' :: '"' :: ':' :: '"' ::
          (escapeChars b.data ++ ['"', '}'])) := by
    have hx := parseStringBody_plain ['s', 'u', 'c', 'c', 'e', 's', 's']
      (':' :: 't' :: 'r' :: 'u' :: 'e' :: ',' :: '"' :: 'r' :: 'e' :: 's' ::
       'p' :: 'o' :: 'n' :: 's' :: 'e' :: '"' :: ':' :: '"' ::
        (escapeChars b.data ++ ['"', '}'])) (by rfl)
    simpa using hx
  have hkey2 : parseStringBody
      ('r' :: 'e' :: 's' :: 'p' :: 'o' :: 'n' :: 's' :: 'e' :: '"' :: ':' ::
       '"' :: (escapeChars b.data ++ ['"', '}'])) =
      some (['r', 'e', 's', 'p', 'o', 'n', 's', 'e'],
        ':' :: '"' :: (escapeChars b.data ++ ['"', '}'])) := by
    have hx := parseStringBody_plain ['r', 'e', 's', 'p', 'o', 'n', 's', 'e']
      (':' :: '"' :: (escapeChars b.data ++ ['"', '}'])) (by rfl)
    simpa using hx
  have hval1 : parseF (f + 2) .val
      ('t' :: 'r' :: 'u' :: 'e' :: ',' :: '"' :: 'r' :: 'e' :: 's' :: 'p' ::
       'o' :: 'n' :: 's' :: 'e' :: '"' :: ':' :: '"' ::
        (escapeChars b.data ++ ['"', '}'])) =
      some (.bool true,
        ',' :: '"' :: 'r' :: 'e' :: 's' :: 'p' :: 'o' :: 'n' :: 's' :: 'e' ::
        '"' :: ':' :: '"' :: (escapeChars b.data ++ ['"', '}'])) :=
    parseF_true (f + 1) _
  have hval2 : parseF (f + 1) .val ('"' :: (escapeChars b.data ++ ['"', '}'])) =
      some (.str b, ['}']) := parseF_str f b ['}']
  rw [successObj_chars]
  rw [parseF]
  simp only [parseStep]
  simp [skipWs, jsonWs]
  rw [parseF]
  simp only [parseStep]
  simp [skipWs, jsonWs, hkey1, hval1]
  rw [parseF]
  simp only [parseStep]
  simp [skipWs, jsonWs, hkey2, hval2, objSet, successObj]

/-- The value parser accepts the serialized failure envelope. -/
theorem parseF_failEnv (f : Nat) (m : String) :
    parseF (f + 4) .val (stringifyChars (failObj m)) =
      some (failObj m, []) := by
  have hkey1 : parseStringBody
      ('s' :: 'u' :: 'c' :: 'c' :: 'e' :: 's' :: 's' :: '"' :: ':' :: 'f' ::
       'a' :: 'l' :: 's' :: 'e' :: ',' :: '"' :: 'e' :: 'r' :: 'r' :: 'o' ::
       'r' :: '"' :: ':' :: '"' :: (escapeChars m.data ++ ['"', '}'])) =
      some (['s', 'u', 'c', 'c', 'e', 's', 's'],
        ':' :: 'f' :: 'a' :: 'l' :: 's' :: 'e' :: ',' :: '"' :: 'e' :: 'r' ::
        'r' :: 'o' :: 'r' :: '"' :: ':' :: '"' ::
          (escapeChars m.data ++ ['"', '}'])) := by
    have hx := parseStringBody_plain ['s', 'u', 'c', 'c', 'e', 's', 's']
      (':' :: 'f' :: 'a' :: 'l' :: 's' :: 'e' :: ',' :: '"' :: 'e' :: 'r' ::
       'r' :: 'o' :: 'r' :: '"' :: ':' :: '"' ::
        (escapeChars m.data ++ ['"', '}'])) (by rfl)
    simpa using hx
  have hkey2 : parseStringBody
      ('e' :: 'r' :: 'r' :: 'o' :: 'r' :: '"' :: ':' :: '"' ::
        (escapeChars m.data ++ ['"', '}'])) =
      some (['e', 'r', 'r', 'o', 'r'],
        ':' :: '"' :: (escapeChars m.data ++ ['"', '}'])) := by
    have hx := parseStringBody_plain ['e', 'r', 'r', 'o', 'r']
      (':' :: '"' :: (escapeChars m.data ++ ['"', '}'])) (by rfl)
    simpa using hx
  have hval1 : parseF (f + 2) .val
      ('f' :: 'a' :: 'l' :: 's' :: 'e' :: ',' :: '"' :: 'e' :: 'r' :: 'r' ::
       'o' :: 'r' :: '"' :: ':' :: '"' ::
        (escapeChars m.data ++ ['"', '}'])) =
      some (.bool false,
        ',' :: '"' :: 'e' :: 'r' :: 'r' :: 'o' :: 'r' :: '"' :: ':' :: '"' ::
          (escapeChars m.data ++ ['"', '}'])) :=
    parseF_false (f + 1) _
  have hval2 : parseF (f + 1) .val ('"' :: (escapeChars m.data ++ ['"', '}'])) =
      some (.str m, ['}']) := parseF_str f m ['}']
  rw [failObj_chars]
  rw [parseF]
  simp only [parseStep]
  simp [skipWs, jsonWs]
  rw [parseF]
  simp only [parseStep]
  simp [skipWs, jsonWs, hkey1, hval1]
  rw [parseF]
  simp only [parseStep]
  simp [skipWs, jsonWs, hkey2, hval2, objSet, failObj]

/-- `JSON.parse` recovers the success envelope from its serialized text. -/
theorem parse_successObj (b : String) :
    Json.parse (Json.stringify (successObj b)) = some (successObj b) := by
  show Json.parse ⟨stringifyChars (successObj b)⟩ = _
  have hskip : skipWs (stringifyChars (successObj b)) =
      stringifyChars (successObj b) := by
    rw [successObj_chars]
    simp [skipWs, jsonWs]
  have hlen : 1 ≤ (stringifyChars (successObj b)).length := by
    rw [successObj_chars]; simp
  rw [Json.parse]
  simp only [hskip]
  have hfuel : 2 * (stringifyChars (successObj b)).length + 2 =
      2 * (stringifyChars (successObj b)).length - 2 + 4 := by
    omega
  rw [hfuel, parseF_successEnv]
  simp [skipWs]

/-- `JSON.parse` recovers the failure envelope from its serialized text. -/
theorem parse_failObj (m : String) :
    Json.parse (Json.stringify (failObj m)) = some (failObj m) := by
  show Json.parse ⟨stringifyChars (failObj m)⟩ = _
  have hskip : skipWs (stringifyChars (failObj m)) =
      stringifyChars (failObj m) := by
    rw [failObj_chars]
    simp [skipWs, jsonWs]
  have hlen : 1 ≤ (stringifyChars (failObj m)).length := by
    rw [failObj_chars]; simp
  rw [Json.parse]
  simp only [hskip]
  have hfuel : 2 * (stringifyChars (failObj m)).length + 2 =
      2 * (stringifyChars (failObj m)).length - 2 + 4 := by
    omega
  rw [hfuel, parseF_failEnv]
  simp [skipWs]

/-! Association-list lemmas for the header merge. -/

/-- Lookup distributes over append, preferring the left list. -/
theorem jsLookup_append {α : Type} (l1 l2 : List (String × α)) (k : String) :
    jsLookup (l1 ++ l2) k = (jsLookup l1 k).or (jsLookup l2 k) := by
  induction l1 with
  | nil => simp [jsLookup]
  | cons kv rest ih =>
    obtain ⟨k0, v0⟩ := kv
    by_cases h : k0 = k <;> simp [jsLookup, h, ih]

/-- Lookup after a JavaScript property assignment. -/
theorem jsLookup_objSet {α : Type} (m : List (String × α)) (k k' : String)
    (v : α) :
    jsLookup (objSet m k' v) k = if k' = k then some v else jsLookup m k := by
  induction m with
  | nil => simp [objSet, jsLookup]
  | cons kv rest ih =>
    obtain ⟨k0, v0⟩ := kv
    by_cases h : k0 = k'
    · subst h
      by_cases h2 : k0 = k <;> simp [objSet, jsLookup, h2]
    · by_cases h2 : k0 = k
      · subst h2
        have hne : ¬ k' = k0 := fun he => h he.symm
        simp [objSet, jsLookup, h, hne]
      · simp [objSet, jsLookup, h, h2, ih]

/-- Lookup after spreading a list of assignments over a base object: the
last assignment of the key wins, the base is the fallback. -/
theorem jsLookup_foldl_objSet {α : Type} (hs : List (String × α))
    (base : List (String × α)) (k : String) :
    jsLookup (hs.foldl (fun acc kv => objSet acc kv.1 kv.2) base) k =
      (jsLookup hs.reverse k).or (jsLookup base k) := by
  induction hs generalizing base with
  | nil => simp [jsLookup]
  | cons kv rest ih =>
    obtain ⟨k0, v0⟩ := kv
    rw [List.foldl_cons, ih]
    simp only [List.reverse_cons, jsLookup_append, jsLookup_objSet]
    cases hl : jsLookup rest.reverse k <;>
      by_cases h : k0 = k <;> simp [jsLookup, h, Option.or]

/-- C4, corrected: the outbound callback request's headers always carry a
`Content-Type` entry — `application/json` when the caller supplies none,
and otherwise the caller's last `Content-Type` value, which displaces the
default (the spread `...headers` overrides the literal's earlier key, though
it can never remove the key). -/
theorem claim4_content_type_header (serverUrl : String) (data : Json)
    (hs : List (String × String)) :
    jsLookup (buildServerRequest serverUrl data hs).headers "Content-Type" =
      (jsLookup hs.reverse "Content-Type").or (some "application/json") := by
  show jsLookup (mergedServerHeaders hs) "Content-Type" = _
  rw [mergedServerHeaders, jsLookup_foldl_objSet]
  simp [jsLookup]

/-- C4, counterexample to the claim as stated: a caller-supplied
`Content-Type: text/plain` header displaces the default JSON content-type
in the outbound request. -/
theorem claim4_counterexample :
    jsLookup (buildServerRequest "u" (.obj [])
        [("Content-Type", "text/plain")]).headers "Content-Type" =
      some "text/plain" ∧ ("text/plain" : String) ≠ "application/json" :=
  ⟨rfl, by decide⟩

/-- The error check fires on every `HTTP <code>: <body>` envelope: the
envelope parses as an object whose `error` value is a nonempty string. -/
theorem resultHasError_httpEnv (code : Nat) (body : String) :
    resultHasError (errorEnvelope ("HTTP " ++ toString code ++ ": " ++ body)) =
      true := by
  have hne : ("HTTP " ++ toString code ++ ": " ++ body) ≠ "" := by
    intro h
    have hl := congrArg String.length h
    simp only [String.length_append] at hl
    have h5 : "HTTP ".length = 5 := by decide
    have h2 : ": ".length = 2 := by decide
    have h0 : ("" : String).length = 0 := by decide
    rw [h5, h2, h0] at hl
    omega
  simp [resultHasError, parse_errorEnvelope, jsLookup, truthyOpt, Json.truthy,
    hne]

/-- C5, corrected: when the consensus-accepted completion text parses as a
JSON object whose `error` value is truthy, `sendRequest` returns `null`;
when the `error` value is falsy (for example the empty string), or the text
does not parse as an object at all, the text is returned unchanged.  (The
source checks `parsed.error` for truthiness, not for key presence.) -/
theorem claim5_error_check (apiKey : String) (payload : Json)
    (execs : List TransportResult) (r : String)
    (hc : consensusIdenticalAggregation
        (execs.map (gatewayFetch apiKey payload)) = .ok r) :
    (∀ kvs, Json.parse r = some (.obj kvs) →
        truthyOpt (jsLookup kvs "error") = true →
        sendRequest apiKey payload execs = none)
    ∧ (∀ kvs, Json.parse r = some (.obj kvs) →
        truthyOpt (jsLookup kvs "error") = false →
        sendRequest apiKey payload execs = some r)
    ∧ ((∀ kvs, Json.parse r ≠ some (.obj kvs)) →
        sendRequest apiKey payload execs = some r) := by
  have hsr : sendRequest apiKey payload execs =
      if resultHasError r then none else some r := by
    simp [sendRequest, hc]
  refine ⟨?_, ?_, ?_⟩
  · intro kvs hp ht
    rw [hsr]
    simp [resultHasError, hp, ht]
  · intro kvs hp ht
    rw [hsr]
    simp [resultHasError, hp, ht]
  · intro hnp
    rw [hsr]
    have hf : resultHasError r = false := by
      rw [resultHasError]
      cases hp : Json.parse r with
      | none => rfl
      | some v =>
        cases v with
        | obj kvs => exact absurd hp (hnp kvs)
        | null => rfl
        | bool b => rfl
        | num n => rfl
        | str s => rfl
        | arr l => rfl
    simp [hf]

/-- C5, counterexample to the claim as stated: a completion text that IS a
JSON object containing an `error` key — with the falsy value `""` — is
returned as a usable completion, not mapped to `null`. -/
theorem claim5_counterexample :
    sendRequest "k" (.obj [])
        [.ok ⟨200, Json.stringify (.obj [("choices", .arr [.obj [("message",
          .obj [("content",
            .str (Json.stringify (.obj [("error", .str "")])))])]])])⟩] =
      some (Json.stringify (.obj [("error", .str "")]))
    ∧ Json.parse (Json.stringify (.obj [("error", .str "")])) =
        some (.obj [("error", .str "")]) :=
  ⟨rfl, rfl⟩

/-- C5, witness: a 404 execution produces an `HTTP 404` envelope with a
truthy `error`, and the Gateway maps it to `null`. -/
theorem claim5_witness :
    sendRequest "k" (.obj []) [.ok ⟨404, "x"⟩] = none := by
  have h := (claim5_error_check "k" (.obj []) [.ok ⟨404, "x"⟩]
      (errorEnvelope ("HTTP " ++ toString 404 ++ ": " ++ "x")) (by rfl)).1
  exact h [("error", .str ("HTTP " ++ toString 404 ++ ": " ++ "x"))]
    (by rfl) (by decide)

/-- C6, confirmed (consensus aggregation modelled from the spec): when the
redundant executions' produced results are not all byte-identical, the
Gateway call fails as `null` and the Forwarder reports a failure object; and
when they are all identical, the call behaves exactly as a single execution
of the common result — no partial or majority result is synthesized. -/
theorem claim6_consensus (apiKey : String) (payload : Json)
    (serverUrl : String) (data : Json) (hs : List (String × String))
    (e : TransportResult) (es : List TransportResult) :
    (¬ (es.map (gatewayFetch apiKey payload)).all
        (· == gatewayFetch apiKey payload e) →
      sendRequest apiKey payload (e :: es) = none)
    ∧ ((es.map (gatewayFetch apiKey payload)).all
        (· == gatewayFetch apiKey payload e) →
      sendRequest apiKey payload (e :: es) = sendRequest apiKey payload [e])
    ∧ (¬ (es.map (serverFetch serverUrl data hs)).all
        (· == serverFetch serverUrl data hs e) →
      sendToServer serverUrl data hs (e :: es) =
        failObj "consensus failure: observations differ")
    ∧ ((es.map (serverFetch serverUrl data hs)).all
        (· == serverFetch serverUrl data hs e) →
      sendToServer serverUrl data hs (e :: es) =
        sendToServer serverUrl data hs [e]) := by
  refine ⟨fun h => ?_, fun h => ?_, fun h => ?_, fun h => ?_⟩
  · simp [sendRequest, consensusIdenticalAggregation, h]
  · simp [sendRequest, consensusIdenticalAggregation, h]
  · simp [sendToServer, consensusIdenticalAggregation, h]
  · simp [sendToServer, consensusIdenticalAggregation, h]

/-- C6, witness: two divergent gateway executions fail as `null`, two
divergent forwarder executions fail as a failure object, and two identical
forwarder executions behave as the single execution. -/
theorem claim6_witness :
    sendRequest "" (.obj []) [.ok ⟨200, "a"⟩, .ok ⟨404, "b"⟩] = none
    ∧ sendToServer "u" (.obj []) [] [.ok ⟨201, "a"⟩, .ok ⟨500, "b"⟩] =
        failObj "consensus failure: observations differ"
    ∧ sendToServer "u" (.obj []) [] [.ok ⟨201, "a"⟩, .ok ⟨201, "a"⟩] =
        sendToServer "u" (.obj []) [] [.ok ⟨201, "a"⟩] := by
  refine ⟨?_, ?_, ?_⟩
  · exact (claim6_consensus "" (.obj []) "u" (.obj []) []
      (.ok ⟨200, "a"⟩) [.ok ⟨404, "b"⟩]).1 (by decide)
  · exact (claim6_consensus "" (.obj []) "u" (.obj []) []
      (.ok ⟨201, "a"⟩) [.ok ⟨500, "b"⟩]).2.2.1 (by decide)
  · exact (claim6_consensus "" (.obj []) "u" (.obj []) []
      (.ok ⟨201, "a"⟩) [.ok ⟨201, "a"⟩]).2.2.2 (by decide)

/-- C7, confirmed: a non-200 provider response is first mapped to the
textual envelope `HTTP <code>: <body>`, and when every redundant execution
carries a non-200 response the Gateway returns `null` — whether the
executions agree (the envelope's truthy `error` fails the call) or disagree
(consensus fails the call). -/
theorem claim7_non200 (apiKey : String) (payload : Json) (code : Nat)
    (body : String) (e : TransportResult) (es : List TransportResult)
    (hcode : code ≠ 200)
    (hall : ∀ x ∈ e :: es, ∃ resp : HttpResponse,
      x = .ok resp ∧ resp.statusCode ≠ 200) :
    gatewayFetch apiKey payload (.ok ⟨code, body⟩) =
      errorEnvelope ("HTTP " ++ toString code ++ ": " ++ body)
    ∧ sendRequest apiKey payload (e :: es) = none := by
  constructor
  · simp [gatewayFetch, hcode]
  · by_cases hAll :
      (es.map (gatewayFetch apiKey payload)).all
        (· == gatewayFetch apiKey payload e)
    · obtain ⟨resp, he, hr⟩ := hall e (by simp)
      subst he
      have hfe : gatewayFetch apiKey payload (.ok resp) =
          errorEnvelope
            ("HTTP " ++ toString resp.statusCode ++ ": " ++ resp.body) := by
        simp [gatewayFetch, hr]
      rw [hfe] at hAll
      simp only [List.all_eq_true, List.mem_map, beq_iff_eq] at hAll
      have hcond : ∀ a ∈ es, gatewayFetch apiKey payload a =
          errorEnvelope
            ("HTTP " ++ toString resp.statusCode ++ ": " ++ resp.body) := by
        intro a ha
        exact hAll _ ⟨a, ha, rfl⟩
      simp only [sendRequest, List.map_cons, consensusIdenticalAggregation,
        hfe, List.all_eq_true, List.mem_map, beq_iff_eq]
      rw [if_pos]
      · simp [resultHasError_httpEnv]
      · simp only [List.all_eq_true, List.mem_map, beq_iff_eq]
        intro x hx
        obtain ⟨a, ha, hax⟩ := hx
        rw [← hax]
        exact hcond a ha
    · simp [sendRequest, consensusIdenticalAggregation, hAll]

/-- C7, witness: a single 404 execution yields the `HTTP 404` envelope and
a `null` Gateway result. -/
theorem claim7_witness :
    gatewayFetch "k" (.obj []) (.ok ⟨404, "not found"⟩) =
      errorEnvelope ("HTTP " ++ toString 404 ++ ": " ++ "not found")
    ∧ sendRequest "k" (.obj []) [.ok ⟨404, "not found"⟩] = none := by
  have h := claim7_non200 "k" (.obj []) 404 "not found"
    (.ok ⟨404, "not found"⟩) [] (by decide)
    (by
      intro x hx
      simp at hx
      subst hx
      exact ⟨⟨404, "not found"⟩, rfl, by decide⟩)
  exact h


/-- Serialized success and failure envelopes are distinct texts. -/
theorem stringify_success_ne_fail (b m : String) :
    Json.stringify (successObj b) ≠ Json.stringify (failObj m) := by
  intro h
  have h1 := parse_successObj b
  rw [h, parse_failObj] at h1
  simp [successObj, failObj] at h1

/-- Serialization of success envelopes is injective in the body. -/
theorem stringify_success_inj {b b' : String}
    (h : Json.stringify (successObj b) = Json.stringify (successObj b')) :
    b = b' := by
  have h1 := parse_successObj b
  rw [h, parse_successObj] at h1
  simpa [successObj] using h1.symm

/-- Case analysis of the Forwarder executor: a 2xx response yields the
serialized success envelope with the response body, every other transport
outcome a serialized failure envelope. -/
theorem serverFetch_cases (u : String) (d : Json)
    (hs : List (String × String)) (t : TransportResult) :
    (∃ resp : HttpResponse, t = .ok resp ∧ 200 ≤ resp.statusCode ∧
      resp.statusCode < 300 ∧
      serverFetch u d hs t = Json.stringify (successObj resp.body)) ∨
    (∃ m, serverFetch u d hs t = Json.stringify (failObj m) ∧
      ∀ resp : HttpResponse, t = .ok resp →
        ¬(200 ≤ resp.statusCode ∧ resp.statusCode < 300)) := by
  cases t with
  | error msg =>
    right
    refine ⟨msg, by simp [serverFetch], ?_⟩
    intro resp h
    cases h
  | ok resp =>
    by_cases h : 200 ≤ resp.statusCode ∧ resp.statusCode < 300
    · left
      exact ⟨resp, rfl, h.1, h.2, by simp [serverFetch, h]⟩
    · right
      refine ⟨"HTTP " ++ toString resp.statusCode ++ ": " ++ resp.body,
        by simp [serverFetch, h], ?_⟩
      intro resp' he
      injection he with he'
      subst he'
      exact h

/-- C9, confirmed: the Forwarder never raises — its result is always a
success or a failure envelope object; it returns
`\x7bsuccess: true, response: <body>\x7d` exactly when the (identical)
executions carry a response with status in [200,300); a non-2xx response is
mapped to the failure envelope with the message `HTTP <code>: <body>`, both
per executor and for the whole call when the executions agree; identical
transport exceptions surface their message; and (with the divergence case
of the shape disjunction) every other outcome is
`\x7bsuccess: false, error: <message>\x7d`. -/
theorem claim9_forwarder (serverUrl : String) (data : Json)
    (hs : List (String × String)) (e : TransportResult)
    (es : List TransportResult) :
    ((∃ b, sendToServer serverUrl data hs (e :: es) = successObj b) ∨
     (∃ m, sendToServer serverUrl data hs (e :: es) = failObj m))
    ∧ (∀ b, sendToServer serverUrl data hs (e :: es) = successObj b ↔
        ∀ x ∈ e :: es, ∃ resp : HttpResponse, x = .ok resp ∧
          200 ≤ resp.statusCode ∧ resp.statusCode < 300 ∧ resp.body = b)
    ∧ (∀ resp : HttpResponse,
        ¬(200 ≤ resp.statusCode ∧ resp.statusCode < 300) →
        serverFetch serverUrl data hs (.ok resp) =
          Json.stringify (failObj
            ("HTTP " ++ toString resp.statusCode ++ ": " ++ resp.body)))
    ∧ (∀ resp : HttpResponse, (∀ x ∈ e :: es, x = .ok resp) →
        ¬(200 ≤ resp.statusCode ∧ resp.statusCode < 300) →
        sendToServer serverUrl data hs (e :: es) =
          failObj ("HTTP " ++ toString resp.statusCode ++ ": " ++ resp.body))
    ∧ (∀ msg : String, (∀ x ∈ e :: es, x = .error msg) →
        sendToServer serverUrl data hs (e :: es) = failObj msg) := by
  have hmap2xx : ∀ resp : HttpResponse,
      ¬(200 ≤ resp.statusCode ∧ resp.statusCode < 300) →
      serverFetch serverUrl data hs (.ok resp) =
        Json.stringify (failObj
          ("HTTP " ++ toString resp.statusCode ++ ": " ++ resp.body)) := by
    intro resp hn
    simp [serverFetch, hn]
  have hAB :
      ((∃ b, sendToServer serverUrl data hs (e :: es) = successObj b) ∨
       (∃ m, sendToServer serverUrl data hs (e :: es) = failObj m))
      ∧ (∀ b, sendToServer serverUrl data hs (e :: es) = successObj b ↔
          ∀ x ∈ e :: es, ∃ resp : HttpResponse, x = .ok resp ∧
            200 ≤ resp.statusCode ∧ resp.statusCode < 300 ∧
            resp.body = b) := by
    by_cases hAll : (es.map (serverFetch serverUrl data hs)).all
        (· == serverFetch serverUrl data hs e)
    · -- consensus accepts the common result
      have hST : sendToServer serverUrl data hs (e :: es) =
          (match Json.parse (serverFetch serverUrl data hs e) with
           | some j => j
           | none => failObj jsonSyntaxErrorMessage) := by
        simp only [sendToServer, List.map_cons, consensusIdenticalAggregation]
        rw [if_pos hAll]
      have hmap : ∀ a ∈ es, serverFetch serverUrl data hs a =
          serverFetch serverUrl data hs e := by
        simp only [List.all_eq_true, List.mem_map, beq_iff_eq] at hAll
        intro a ha
        exact hAll _ ⟨a, ha, rfl⟩
      rcases serverFetch_cases serverUrl data hs e with
        ⟨resp, he, h2, h3, hfe⟩ | ⟨m, hfe, hnot⟩
      · have hout : sendToServer serverUrl data hs (e :: es) =
            successObj resp.body := by
          rw [hST, hfe, parse_successObj]
        refine ⟨Or.inl ⟨resp.body, hout⟩, ?_⟩
        intro b
        constructor
        · intro hEq
          rw [hout] at hEq
          have hb : resp.body = b := by
            simpa [successObj] using hEq
          intro x hx
          rcases List.mem_cons.mp hx with hxe | hxs
          · subst hxe
            exact ⟨resp, he, h2, h3, hb⟩
          · rcases serverFetch_cases serverUrl data hs x with
              ⟨rx, hxe2, h2x, h3x, hfx⟩ | ⟨mx, hfx, _⟩
            · have : Json.stringify (successObj rx.body) =
                  Json.stringify (successObj resp.body) := by
                rw [← hfx, hmap x hxs, hfe]
              have hbx := stringify_success_inj this
              exact ⟨rx, hxe2, h2x, h3x, hbx.trans hb⟩
            · exfalso
              have : Json.stringify (failObj mx) =
                  Json.stringify (successObj resp.body) := by
                rw [← hfx, hmap x hxs, hfe]
              exact stringify_success_ne_fail resp.body mx this.symm
        · intro hall2
          obtain ⟨re, hee, _, _, hbe⟩ := hall2 e (by simp)
          rw [he] at hee
          injection hee with he2
          subst he2
          rw [hout, hbe]
      · have hout : sendToServer serverUrl data hs (e :: es) = failObj m := by
          rw [hST, hfe, parse_failObj]
        refine ⟨Or.inr ⟨m, hout⟩, ?_⟩
        intro b
        constructor
        · intro hEq
          rw [hout] at hEq
          exact absurd hEq (by simp [successObj, failObj])
        · intro hall2
          exfalso
          obtain ⟨re, hee, h2e, h3e, hbe⟩ := hall2 e (by simp)
          exact hnot re hee ⟨h2e, h3e⟩
    · -- consensus failure
      have hST : sendToServer serverUrl data hs (e :: es) =
          failObj "consensus failure: observations differ" := by
        simp [sendToServer, consensusIdenticalAggregation, hAll]
      refine ⟨Or.inr ⟨_, hST⟩, ?_⟩
      intro b
      constructor
      · intro hEq
        rw [hST] at hEq
        exact absurd hEq (by simp [successObj, failObj])
      · intro hall2
        exfalso
        apply hAll
        simp only [List.all_eq_true, List.mem_map, beq_iff_eq]
        intro x hx
        obtain ⟨a, ha, rfl⟩ := hx
        obtain ⟨ra, hae, h2a, h3a, hba⟩ := hall2 a (by simp [ha])
        obtain ⟨re, hee, h2e, h3e, hbe⟩ := hall2 e (by simp)
        rw [hae, hee]
        have hfa : serverFetch serverUrl data hs (.ok ra) =
            Json.stringify (successObj ra.body) := by
          simp [serverFetch, h2a, h3a]
        have hfb : serverFetch serverUrl data hs (.ok re) =
            Json.stringify (successObj re.body) := by
          simp [serverFetch, h2e, h3e]
        rw [hfa, hfb, hba, hbe]
  refine ⟨hAB.1, hAB.2, hmap2xx, ?_, ?_⟩
  · intro resp hall hn
    have hfe : serverFetch serverUrl data hs e =
        Json.stringify (failObj
          ("HTTP " ++ toString resp.statusCode ++ ": " ++ resp.body)) := by
      rw [hall e (by simp)]
      exact hmap2xx resp hn
    have hAll : (es.map (serverFetch serverUrl data hs)).all
        (· == serverFetch serverUrl data hs e) := by
      simp only [List.all_eq_true, List.mem_map, beq_iff_eq]
      intro x hx
      obtain ⟨a, ha, rfl⟩ := hx
      rw [hall a (by simp [ha]), hall e (by simp)]
    simp only [sendToServer, List.map_cons, consensusIdenticalAggregation]
    rw [if_pos hAll, hfe]
    show (match Json.parse (Json.stringify (failObj
        ("HTTP " ++ toString resp.statusCode ++ ": " ++ resp.body))) with
      | some j => j
      | none => failObj jsonSyntaxErrorMessage) = _
    rw [parse_failObj]
  · intro msg hall
    have hfe : serverFetch serverUrl data hs e =
        Json.stringify (failObj msg) := by
      rw [hall e (by simp)]
      rfl
    have hAll : (es.map (serverFetch serverUrl data hs)).all
        (· == serverFetch serverUrl data hs e) := by
      simp only [List.all_eq_true, List.mem_map, beq_iff_eq]
      intro x hx
      obtain ⟨a, ha, rfl⟩ := hx
      rw [hall a (by simp [ha]), hall e (by simp)]
    simp only [sendToServer, List.map_cons, consensusIdenticalAggregation]
    rw [if_pos hAll, hfe]
    show (match Json.parse (Json.stringify (failObj msg)) with
      | some j => j
      | none => failObj jsonSyntaxErrorMessage) = _
    rw [parse_failObj]

/-- C9, witness: an identical 500 execution yields the failure envelope
with the `HTTP 500` message, and an identical 201 execution yields the
success envelope with the response body. -/
theorem claim9_witness :
    sendToServer "u" (.obj []) [] [.ok ⟨500, "oops"⟩] =
      failObj ("HTTP " ++ toString 500 ++ ": " ++ "oops")
    ∧ sendToServer "u" (.obj []) [] [.ok ⟨201, "ack"⟩] = successObj "ack" := by
  constructor
  · exact (claim9_forwarder "u" (.obj []) [] (.ok ⟨500, "oops"⟩) []).2.2.2.1
      ⟨500, "oops"⟩ (by intro x hx; simpa using hx) (by decide)
  · exact ((claim9_forwarder "u" (.obj []) [] (.ok ⟨201, "ack"⟩) []).2.1
      "ack").mpr
      (by
        intro x hx
        simp only [List.mem_cons, List.not_mem_nil, or_false] at hx
        subst hx
        exact ⟨⟨201, "ack"⟩, rfl, by decide, by decide, rfl⟩)

/-- C10, confirmed: `getTradingDecisions` returns `null` when the Gateway
returned `null` and when the completion text is not valid JSON — in the
latter case the raw text is dropped, in contrast with the orchestrator's
raw-text wrapper — and any successfully parsed value is returned with no
shape validation against `TradingDecisionResponse`. -/
theorem claim10_getTradingDecisions (apiKey : String) (payload : Json)
    (execs : List TransportResult) :
    (sendRequest apiKey payload execs = none →
      getTradingDecisions apiKey payload execs = none)
    ∧ (∀ r, sendRequest apiKey payload execs = some r → Json.parse r = none →
        getTradingDecisions apiKey payload execs = none
        ∧ interpretResponse r = rawWrapper r)
    ∧ (∀ r v, sendRequest apiKey payload execs = some r →
        Json.parse r = some v →
        getTradingDecisions apiKey payload execs = some v) := by
  refine ⟨?_, ?_, ?_⟩
  · intro h
    simp [getTradingDecisions, h]
  · intro r hs hp
    constructor
    · by_cases he : r = ""
      · simp [getTradingDecisions, hs, he]
      · simp [getTradingDecisions, hs, he, hp]
    · simp [interpretResponse, hp]
  · intro r v hs hp
    have he : r ≠ "" := by
      intro h0
      subst h0
      rw [show Json.parse "" = none from rfl] at hp
      cases hp
    simp [getTradingDecisions, hs, he, hp]

/-- C10, witness: a completion of `5` is returned as the parsed number with
no validation, although it is no `TradingDecisionResponse`. -/
theorem claim10_witness :
    getTradingDecisions "k" (.obj [])
        [.ok ⟨200, Json.stringify (.obj [("choices", .arr [.obj [("message",
          .obj [("content", .str "5")])]])])⟩] = some (.num 5)
    ∧ isTradingDecisionResponse (.num 5) = false := by
  refine ⟨?_, rfl⟩
  exact (claim10_getTradingDecisions "k" (.obj []) _).2.2 "5" (.num 5)
    (by rfl) (by rfl)

/-- C3, corrected: interpretation is total and yields either the raw-text
wrapper with the unmodified completion or the JSON value the completion
parses to — with no validation against the `TradingDecisionResponse` shape;
and the orchestrator's final callback-branch output carries exactly that
interpreted value in its `llm_response` field. -/
theorem claim3_interpreter :
    (∀ s, interpretResponse s = rawWrapper s ∨
      Json.parse s = some (interpretResponse s))
    ∧ (∀ (a : TriggerArgs) (payload : Json) (response : String),
        Json.parse a.input = some payload → payload ≠ .null →
        (!truthyOpt (jsField payload "model")
          || !truthyOpt (jsField payload "messages")) = false →
        sendRequest a.config.openRouterApiKey payload a.gatewayExecs =
          some response →
        response ≠ "" → a.config.callbackUrl ≠ "" →
        (onHttpTrigger a).result = .ok (Json.stringify (.obj
          [("llm_response", interpretResponse response),
           ("server_callback", sendToServer a.config.callbackUrl
             (.obj [("llm_response", interpretResponse response),
                    ("timestamp", .str a.timestamp)])
             [] a.forwarderExecs)]))) := by
  constructor
  · intro s
    cases hp : Json.parse s with
    | none => left; simp [interpretResponse, hp]
    | some v =>
      cases v with
      | null => left; simp [interpretResponse, hp]
      | bool b => right; simp [interpretResponse, hp, jsField]
      | num n => right; simp [interpretResponse, hp, jsField]
      | str s2 => right; simp [interpretResponse, hp, jsField]
      | arr l => right; simp [interpretResponse, hp, jsField]
      | obj kvs =>
        cases htd : jsLookup kvs "trade_decisions" with
        | none => right; simp [interpretResponse, hp, jsField, htd]
        | some td =>
          by_cases ht : td.truthy
          · cases td with
            | arr items =>
              have hstep : interpretResponse s =
                  (if items.any
                      (fun d => match d with | .null => true | _ => false)
                    then rawWrapper s else Json.obj kvs) := by
                simp only [interpretResponse, hp, jsField, htd, ht, if_true]
              by_cases hn : items.any
                  (fun d => match d with | .null => true | _ => false)
              · left
                rw [hstep, if_pos hn]
              · right
                rw [hstep, if_neg hn]
            | str s3 => right; simp [interpretResponse, hp, jsField, htd, ht]
            | null => simp [Json.truthy] at ht
            | bool b => left; simp [interpretResponse, hp, jsField, htd, ht]
            | num n => left; simp [interpretResponse, hp, jsField, htd, ht]
            | obj kvs2 => left; simp [interpretResponse, hp, jsField, htd, ht]
          · right; simp [interpretResponse, hp, jsField, htd, ht]
  · intro a payload response hp hnn hv hsr hne hcb
    cases payload with
    | null => exact absurd rfl hnn
    | bool b => simp [onHttpTrigger, hp, hv, hsr, hne, hcb]
    | num n => simp [onHttpTrigger, hp, hv, hsr, hne, hcb]
    | str s2 => simp [onHttpTrigger, hp, hv, hsr, hne, hcb]
    | arr l => simp [onHttpTrigger, hp, hv, hsr, hne, hcb]
    | obj kvs => simp [onHttpTrigger, hp, hv, hsr, hne, hcb]

/-- C3, counterexample to the claim as stated: the completion text `5`
parses, is kept as the interpreted value, and is neither a strictly shaped
`TradingDecisionResponse` nor the raw-text wrapper. -/
theorem claim3_counterexample :
    interpretResponse "5" = Json.num 5
    ∧ isTradingDecisionResponse (.num 5) = false
    ∧ Json.num 5 ≠ rawWrapper "5" :=
  ⟨rfl, rfl, by simp [rawWrapper]⟩

/-- C3, witness: the end-to-end callback-branch output for a non-JSON
completion `hello` carries the raw-text wrapper as its `llm_response`. -/
theorem claim3_witness :
    (onHttpTrigger ⟨Json.stringify (.obj [("model", .str "m"),
        ("messages", .arr [.obj [("role", .str "user"),
          ("content", .str "hi")]])]),
      ⟨"http://cb", ""⟩,
      [.ok ⟨200, Json.stringify (.obj [("choices", .arr [.obj [("message",
        .obj [("content", .str "hello")])]])])⟩],
      [.ok ⟨201, "ack"⟩], "T"⟩).result =
      .ok (Json.stringify (.obj
        [("llm_response", interpretResponse "hello"),
         ("server_callback", sendToServer "http://cb"
           (.obj [("llm_response", interpretResponse "hello"),
                  ("timestamp", .str "T")]) [] [.ok ⟨201, "ack"⟩])])) :=
  claim3_interpreter.2 _
    (.obj [("model", .str "m"),
      ("messages", .arr [.obj [("role", .str "user"),
        ("content", .str "hi")]])])
    "hello" (by rfl) (by intro h; exact Json.noConfusion h) (by rfl) (by rfl)
    (by decide) (by decide)

/-- C1, corrected: a decoded non-null payload whose `model` is falsy
(missing or empty) or whose `messages` is falsy (missing) makes the handler
return exactly the missing-data error JSON without entering the Gateway.
An empty `messages` array, however, is truthy in JavaScript and passes this
validation (see the counterexample). -/
theorem claim1_validator (a : TriggerArgs) (payload : Json)
    (hp : Json.parse a.input = some payload)
    (hnn : payload ≠ .null)
    (hmiss : truthyOpt (jsField payload "model") = false ∨
             truthyOpt (jsField payload "messages") = false) :
    (onHttpTrigger a).result = .ok missingDataError
    ∧ (onHttpTrigger a).gatewayCalls = 0 := by
  have hcond : (!truthyOpt (jsField payload "model")
      || !truthyOpt (jsField payload "messages")) = true := by
    rcases hmiss with h | h <;> simp [h]
  have hout : onHttpTrigger a = ⟨.ok missingDataError, 0, 0⟩ := by
    cases payload with
    | null => exact absurd rfl hnn
    | bool b => simp [onHttpTrigger, hp, hcond]
    | num n => simp [onHttpTrigger, hp, hcond]
    | str s => simp [onHttpTrigger, hp, hcond]
    | arr l => simp [onHttpTrigger, hp, hcond]
    | obj kvs => simp [onHttpTrigger, hp, hcond]
  rw [hout]
  exact ⟨rfl, rfl⟩

/-- C1, counterexample to the claim as stated: a payload with an empty
`messages` array passes validation (an empty array is truthy), the Gateway
is invoked, and the missing-data error is not returned. -/
theorem claim1_counterexample :
    (onHttpTrigger ⟨Json.stringify (.obj [("model", .str "m"),
        ("messages", .arr [])]), ⟨"", ""⟩, [], [], "T"⟩).gatewayCalls = 1
    ∧ (onHttpTrigger ⟨Json.stringify (.obj [("model", .str "m"),
        ("messages", .arr [])]), ⟨"", ""⟩, [], [], "T"⟩).result ≠
      .ok missingDataError := by
  refine ⟨rfl, ?_⟩
  intro h
  have h3 : llmFailureError = missingDataError := by
    have h2 : (onHttpTrigger ⟨Json.stringify (.obj [("model", .str "m"),
        ("messages", .arr [])]), ⟨"", ""⟩, [], [], "T"⟩).result =
        .ok llmFailureError := rfl
    rw [h2] at h
    exact Except.ok.inj h
  exact absurd (congrArg String.length h3) (by decide)

/-- C1, witness: a payload with no `model` field short-circuits with the
missing-data error and zero Gateway calls. -/
theorem claim1_witness :
    (onHttpTrigger ⟨Json.stringify (.obj [("messages", .arr [.str "x"])]),
      ⟨"", ""⟩, [], [], "T"⟩).result = .ok missingDataError
    ∧ (onHttpTrigger ⟨Json.stringify (.obj [("messages", .arr [.str "x"])]),
      ⟨"", ""⟩, [], [], "T"⟩).gatewayCalls = 0 :=
  claim1_validator _ (.obj [("messages", .arr [.str "x"])]) rfl
    (by intro h; exact Json.noConfusion h) (Or.inl rfl)

/-- C2, corrected: the handler returns a value (never raises) for every
envelope that decodes to a non-null JSON payload; an undecodable envelope
or a `null` payload raises out of the handler, since the decode and the
line-19 property access happen before any guard. -/
theorem claim2_no_raise (a : TriggerArgs) (payload : Json)
    (hp : Json.parse a.input = some payload) (hnn : payload ≠ .null) :
    ∃ s, (onHttpTrigger a).result = .ok s := by
  cases payload with
  | null => exact absurd rfl hnn
  | bool b =>
    simp only [onHttpTrigger, hp]
    repeat' split
    all_goals exact ⟨_, rfl⟩
  | num n =>
    simp only [onHttpTrigger, hp]
    repeat' split
    all_goals exact ⟨_, rfl⟩
  | str s2 =>
    simp only [onHttpTrigger, hp]
    repeat' split
    all_goals exact ⟨_, rfl⟩
  | arr l =>
    simp only [onHttpTrigger, hp]
    repeat' split
    all_goals exact ⟨_, rfl⟩
  | obj kvs =>
    simp only [onHttpTrigger, hp]
    repeat' split
    all_goals exact ⟨_, rfl⟩

/-- C2, counterexample to the claim as stated: an envelope that is not
valid JSON makes `decodeJson` throw an uncaught `SyntaxError`, which
escapes the handler. -/
theorem claim2_counterexample :
    (onHttpTrigger ⟨"not json", ⟨"", ""⟩, [], [], "T"⟩).result =
      .error jsonSyntaxErrorMessage := rfl

/-- C2, witness: a decodable object payload always gets a returned value. -/
theorem claim2_witness :
    ∃ s, (onHttpTrigger ⟨Json.stringify (.obj [("model", .str "m")]),
      ⟨"", ""⟩, [], [], "T"⟩).result = .ok s :=
  claim2_no_raise _ (.obj [("model", .str "m")]) rfl
    (by intro h; exact Json.noConfusion h)

/-! Binary codec lemmas: bounded bit-arithmetic facts, the decoder's
behavior on one symbol group, and the encode/decode round trip. -/

/-- Decoding a symbol the alphabet produced recovers its index. -/
theorem b64_alphaVal : ∀ n < 64, b64val (b64char n) = some n := by decide

/-- No alphabet symbol is the padding symbol. -/
theorem b64char_ne_pad : ∀ n < 64, b64char n ≠ '=' := by decide

/-- Masking a byte with 3 is its remainder mod 4. -/
theorem nat_and3 : ∀ b < 256, b &&& 3 = b % 4 := by decide

/-- Masking a byte with 15 is its remainder mod 16. -/
theorem nat_and15 : ∀ b < 256, b &&& 15 = b % 16 := by decide

/-- Masking a byte with 63 is its remainder mod 64. -/
theorem nat_and63 : ∀ b < 256, b &&& 63 = b % 64 := by decide

/-- An or of disjoint 4-bit halves is their sum. -/
theorem or_shl4 : ∀ x < 16, ∀ y < 16, (x <<< 4) ||| y = x * 16 + y := by decide

/-- An or of a value shifted past two low bits with those bits is a sum. -/
theorem or_shl2 : ∀ x < 64, ∀ y < 4, (x <<< 2) ||| y = x * 4 + y := by decide

/-- First decoded byte of a group, in div/mod form. -/
theorem dec1 : ∀ v1 < 64, ∀ v2 < 64,
    (v1 <<< 2) ||| (v2 >>> 4) = v1 * 4 + v2 / 16 := by decide

/-- Second decoded byte of a group, in div/mod form. -/
theorem dec2 : ∀ v2 < 64, ∀ v3 < 64,
    ((v2 &&& 15) <<< 4) ||| (v3 >>> 2) = (v2 % 16) * 16 + v3 / 4 := by decide

/-- Third decoded byte of a group, in div/mod form. -/
theorem dec3 : ∀ v3 < 64, ∀ v4 < 64,
    ((v3 &&& 3) <<< 6) ||| v4 = (v3 % 4) * 64 + v4 := by decide

/-- Right shift by two is division by 4. -/
theorem shr2_div (b : Nat) : b >>> 2 = b / 4 := by
  rw [Nat.shiftRight_eq_div_pow]

/-- Right shift by four is division by 16. -/
theorem shr4_div (b : Nat) : b >>> 4 = b / 16 := by
  rw [Nat.shiftRight_eq_div_pow]

/-- Right shift by six is division by 64. -/
theorem shr6_div (b : Nat) : b >>> 6 = b / 64 := by
  rw [Nat.shiftRight_eq_div_pow]

/-- Second encoded symbol value of a group, in div/mod form. -/
theorem encArith2 (b1 b2 : Nat) (h1 : b1 < 256) (h2 : b2 < 256) :
    ((b1 &&& 3) <<< 4) ||| (b2 >>> 4) = (b1 % 4) * 16 + b2 / 16 := by
  rw [nat_and3 b1 h1, shr4_div]
  exact or_shl4 (b1 % 4) (by omega) (b2 / 16) (by omega)

/-- Third encoded symbol value of a full group, in div/mod form. -/
theorem encArith3 (b2 b3 : Nat) (h2 : b2 < 256) (h3 : b3 < 256) :
    ((b2 &&& 15) <<< 2) ||| (b3 >>> 6) = (b2 % 16) * 4 + b3 / 64 := by
  rw [nat_and15 b2 h2, shr6_div]
  exact or_shl2 (b2 % 16) (by omega) (b3 / 64) (by omega)

/-- Second encoded symbol value of a final one-byte group. -/
theorem encArith2a (b1 : Nat) (h1 : b1 < 256) :
    (b1 &&& 3) <<< 4 = (b1 % 4) * 16 := by
  rw [nat_and3 b1 h1, Nat.shiftLeft_eq]

/-- Third encoded symbol value of a final two-byte group. -/
theorem encArith3a (b2 : Nat) (h2 : b2 < 256) :
    (b2 &&& 15) <<< 2 = (b2 % 16) * 4 := by
  rw [nat_and15 b2 h2, Nat.shiftLeft_eq]

/-- The reference decoder on a doubly padded final group. -/
theorem b64decode_pad2 (c1 c2 : Char) (v1 v2 : Nat)
    (h1 : b64val c1 = some v1) (h2 : b64val c2 = some v2) :
    b64decodeChars [c1, c2, '=', '='] = some [(v1 <<< 2) ||| (v2 >>> 4)] := by
  simp [b64decodeChars, h1, h2]

/-- The reference decoder on a singly padded final group. -/
theorem b64decode_pad1 (c1 c2 c3 : Char) (v1 v2 v3 : Nat)
    (h1 : b64val c1 = some v1) (h2 : b64val c2 = some v2)
    (h3 : b64val c3 = some v3) (hne : c3 ≠ '=') :
    b64decodeChars [c1, c2, c3, '='] =
      some [(v1 <<< 2) ||| (v2 >>> 4),
        ((v2 &&& 15) <<< 4) ||| (v3 >>> 2)] := by
  simp [b64decodeChars, h1, h2, h3, hne]

/-- The reference decoder on an unpadded group followed by more input. -/
theorem b64decode_full (c1 c2 c3 c4 : Char) (rest : List Char)
    (v1 v2 v3 v4 : Nat) (tail : List Nat)
    (h1 : b64val c1 = some v1) (h2 : b64val c2 = some v2)
    (h3 : b64val c3 = some v3) (h4 : b64val c4 = some v4)
    (hne3 : c3 ≠ '=') (hne4 : c4 ≠ '=')
    (hrest : b64decodeChars rest = some tail) :
    b64decodeChars (c1 :: c2 :: c3 :: c4 :: rest) =
      some (((v1 <<< 2) ||| (v2 >>> 4))
        :: (((v2 &&& 15) <<< 4) ||| (v3 >>> 2))
        :: (((v3 &&& 3) <<< 6) ||| v4)
        :: tail) := by
  simp [b64decodeChars, h1, h2, h3, h4, hne3, hne4, hrest]

/-- The reference decoder inverts the source encoder on every byte
sequence. -/
theorem b64_roundtrip_chars :
    ∀ bs : List Nat, (∀ b ∈ bs, b < 256) →
      b64decodeChars (toBase64Chars bs) = some bs
  | [], _ => rfl
  | [b1], h => by
    have hb1 : b1 < 256 := h b1 (by simp)
    have h641 : b1 >>> 2 < 64 := by rw [shr2_div]; omega
    have e2 := encArith2a b1 hb1
    have h642 : (b1 &&& 3) <<< 4 < 64 := by rw [e2]; omega
    show b64decodeChars [b64char (b1 >>> 2), b64char ((b1 &&& 3) <<< 4),
      '=', '='] = some [b1]
    rw [b64decode_pad2 _ _ _ _ (b64_alphaVal _ h641) (b64_alphaVal _ h642)]
    rw [dec1 _ h641 _ h642, e2, shr2_div]
    congr 2
    omega
  | [b1, b2], h => by
    have hb1 : b1 < 256 := h b1 (by simp)
    have hb2 : b2 < 256 := h b2 (by simp)
    have h641 : b1 >>> 2 < 64 := by rw [shr2_div]; omega
    have e2 := encArith2 b1 b2 hb1 hb2
    have h642 : ((b1 &&& 3) <<< 4) ||| (b2 >>> 4) < 64 := by
      rw [e2]; omega
    have e3 := encArith3a b2 hb2
    have h643 : (b2 &&& 15) <<< 2 < 64 := by rw [e3]; omega
    show b64decodeChars [b64char (b1 >>> 2),
      b64char (((b1 &&& 3) <<< 4) ||| (b2 >>> 4)),
      b64char ((b2 &&& 15) <<< 2), '='] = some [b1, b2]
    rw [b64decode_pad1 _ _ _ _ _ _ (b64_alphaVal _ h641)
      (b64_alphaVal _ h642) (b64_alphaVal _ h643) (b64char_ne_pad _ h643)]
    rw [dec1 _ h641 _ h642, dec2 _ h642 _ h643, e2, e3, shr2_div]
    congr 2
    · omega
    · congr 1
      omega
  | b1 :: b2 :: b3 :: rest, h => by
    have hb1 : b1 < 256 := h b1 (by simp)
    have hb2 : b2 < 256 := h b2 (by simp)
    have hb3 : b3 < 256 := h b3 (by simp)
    have ih := b64_roundtrip_chars rest (fun b hb => h b (by simp [hb]))
    have h641 : b1 >>> 2 < 64 := by rw [shr2_div]; omega
    have e2 := encArith2 b1 b2 hb1 hb2
    have h642 : ((b1 &&& 3) <<< 4) ||| (b2 >>> 4) < 64 := by rw [e2]; omega
    have e3 := encArith3 b2 b3 hb2 hb3
    have h643 : ((b2 &&& 15) <<< 2) ||| (b3 >>> 6) < 64 := by rw [e3]; omega
    have e4 := nat_and63 b3 hb3
    have h644 : b3 &&& 63 < 64 := by rw [e4]; omega
    show b64decodeChars (b64char (b1 >>> 2)
        :: b64char (((b1 &&& 3) <<< 4) ||| (b2 >>> 4))
        :: b64char (((b2 &&& 15) <<< 2) ||| (b3 >>> 6))
        :: b64char (b3 &&& 63)
        :: toBase64Chars rest) = some (b1 :: b2 :: b3 :: rest)
    rw [b64decode_full _ _ _ _ _ _ _ _ _ _ (b64_alphaVal _ h641)
      (b64_alphaVal _ h642) (b64_alphaVal _ h643) (b64_alphaVal _ h644)
      (b64char_ne_pad _ h643) (b64char_ne_pad _ h644) ih]
    rw [dec1 _ h641 _ h642, dec2 _ h642 _ h643, dec3 _ h643 _ h644,
      e2, e3, e4, shr2_div]
    congr 2
    · omega
    · congr 1
      · omega
      · congr 1
        omega

/-- Encodings of complete-group inputs contain no padding symbol. -/
theorem b64_no_pad :
    ∀ bs : List Nat, (∀ b ∈ bs, b < 256) → bs.length % 3 = 0 →
      '=' ∉ toBase64Chars bs
  | [], _, _ => by simp [toBase64Chars]
  | [b1], _, hl => by simp at hl
  | [b1, b2], _, hl => by simp at hl
  | b1 :: b2 :: b3 :: rest, h, hl => by
    have hb1 : b1 < 256 := h b1 (by simp)
    have hb2 : b2 < 256 := h b2 (by simp)
    have hb3 : b3 < 256 := h b3 (by simp)
    have hl2 : rest.length % 3 = 0 := by
      simp only [List.length_cons] at hl
      omega
    have ih := b64_no_pad rest (fun b hb => h b (by simp [hb])) hl2
    have h641 : b1 >>> 2 < 64 := by rw [shr2_div]; omega
    have h642 : ((b1 &&& 3) <<< 4) ||| (b2 >>> 4) < 64 := by
      rw [encArith2 b1 b2 hb1 hb2]; omega
    have h643 : ((b2 &&& 15) <<< 2) ||| (b3 >>> 6) < 64 := by
      rw [encArith3 b2 b3 hb2 hb3]; omega
    have h644 : b3 &&& 63 < 64 := by rw [nat_and63 b3 hb3]; omega
    intro hmem
    simp only [toBase64Chars, List.mem_cons] at hmem
    rcases hmem with h1 | h2 | h3 | h4 | h5
    · exact b64char_ne_pad _ h641 h1.symm
    · exact b64char_ne_pad _ h642 h2.symm
    · exact b64char_ne_pad _ h643 h3.symm
    · exact b64char_ne_pad _ h644 h4.symm
    · exact ih h5

/-- Encodings of inputs one byte past a complete group end in two padding
symbols. -/
theorem b64_pad_two :
    ∀ bs : List Nat, bs.length % 3 = 1 →
      ∃ l, toBase64Chars bs = l ++ ['=', '=']
  | [], hl => by simp at hl
  | [b1], _ => ⟨[b64char (b1 >>> 2), b64char ((b1 &&& 3) <<< 4)], rfl⟩
  | [b1, b2], hl => by simp at hl
  | b1 :: b2 :: b3 :: rest, hl => by
    have hl2 : rest.length % 3 = 1 := by
      simp only [List.length_cons] at hl
      omega
    obtain ⟨l, hrec⟩ := b64_pad_two rest hl2
    exact ⟨b64char (b1 >>> 2)
        :: b64char (((b1 &&& 3) <<< 4) ||| (b2 >>> 4))
        :: b64char (((b2 &&& 15) <<< 2) ||| (b3 >>> 6))
        :: b64char (b3 &&& 63) :: l,
      by simp [toBase64Chars, hrec]⟩

/-- Encodings of inputs two bytes past a complete group end in exactly one
padding symbol. -/
theorem b64_pad_one :
    ∀ bs : List Nat, (∀ b ∈ bs, b < 256) → bs.length % 3 = 2 →
      ∃ l c, toBase64Chars bs = l ++ [c, '='] ∧ c ≠ '='
  | [], _, hl => by simp at hl
  | [b1], _, hl => by simp at hl
  | [b1, b2], h, _ => by
    have hb2 : b2 < 256 := h b2 (by simp)
    have h643 : (b2 &&& 15) <<< 2 < 64 := by
      rw [encArith3a b2 hb2]; omega
    exact ⟨[b64char (b1 >>> 2),
        b64char (((b1 &&& 3) <<< 4) ||| (b2 >>> 4))],
      b64char ((b2 &&& 15) <<< 2), rfl, b64char_ne_pad _ h643⟩
  | b1 :: b2 :: b3 :: rest, h, hl => by
    have hl2 : rest.length % 3 = 2 := by
      simp only [List.length_cons] at hl
      omega
    obtain ⟨l, c, hrec, hc⟩ :=
      b64_pad_one rest (fun b hb => h b (by simp [hb])) hl2
    exact ⟨b64char (b1 >>> 2)
        :: b64char (((b1 &&& 3) <<< 4) ||| (b2 >>> 4))
        :: b64char (((b2 &&& 15) <<< 2) ||| (b3 >>> 6))
        :: b64char (b3 &&& 63) :: l, c,
      by simp [toBase64Chars, hrec], hc⟩

/-- C8, confirmed: for every byte sequence, the spec's reference RFC-4648
decoder applied to `toBase64` recovers the input; a length-`3k` input
encodes with no padding symbol, a length-`3k+1` input's encoding ends in
`==`, and a length-`3k+2` input's encoding ends in a single `=`. -/
theorem claim8_base64 (bs : List Nat) (h : ∀ b ∈ bs, b < 256) :
    b64decode (toBase64 bs) = some bs
    ∧ (bs.length % 3 = 0 → '=' ∉ (toBase64 bs).data)
    ∧ (bs.length % 3 = 1 → ∃ l, (toBase64 bs).data = l ++ ['=', '='])
    ∧ (bs.length % 3 = 2 →
        ∃ l c, (toBase64 bs).data = l ++ [c, '='] ∧ c ≠ '=') := by
  refine ⟨b64_roundtrip_chars bs h, ?_, ?_, ?_⟩
  · intro hl
    exact b64_no_pad bs h hl
  · intro hl
    exact b64_pad_two bs hl
  · intro hl
    exact b64_pad_one bs h hl

/-- C8, witness: the classic `Man`/`TWFu` triple and its truncations. -/
theorem claim8_witness :
    b64decode (toBase64 [77, 97, 110]) = some [77, 97, 110]
    ∧ '=' ∉ (toBase64 [77, 97, 110]).data
    ∧ (∃ l, (toBase64 [77]).data = l ++ ['=', '='])
    ∧ (∃ l c, (toBase64 [77, 97]).data = l ++ [c, '='] ∧ c ≠ '=') :=
  ⟨(claim8_base64 [77, 97, 110] (by decide)).1,
   (claim8_base64 [77, 97, 110] (by decide)).2.1 (by decide),
   (claim8_base64 [77] (by decide)).2.2.1 (by decide),
   (claim8_base64 [77, 97] (by decide)).2.2.2 (by decide)⟩
